import Mathlib

/-!
Verification development for the experimental 3D-printing CAD tool.

The program voxelizes implicit shapes: `isPointInShape` decides membership of
a local-space point in one of eleven shape kinds, `rebuildPuzzle` samples a
`resolution³` grid over the cube `[-1,1]³` and keeps the cell centers that are
inside (in Single mode the chosen shape, in Designer mode the union of the
enabled placed elements), attaching per-piece attributes; an animation tick
smooths explode/noise scalars toward targets, and an export step serializes
the current instance matrices.

Numbers are embedded as exact rationals.  The JavaScript `Math.*`
transcendental functions (sqrt, sin, cos, acos, atan2, pow) and the constant
`Math.PI` have no exact rational counterpart, so every definition is
parametrized by a record `JsMath` of interpretations for them; theorems that
depend on analytic facts about a primitive take that fact as an explicit
hypothesis on the record.  `Math.random()` is modelled by an explicit stream
`ℕ → ℚ` consumed in call order.
-/

/-- Interpretations of the JavaScript `Math` primitives used by the program. -/
structure JsMath where
  sqrt : ℚ → ℚ
  sin : ℚ → ℚ
  cos : ℚ → ℚ
  acos : ℚ → ℚ
  atan2 : ℚ → ℚ → ℚ
  pow : ℚ → ℚ → ℚ
  pi : ℚ

/-- A 3-component vector with exact rational coordinates (THREE.Vector3). -/
@[ext] structure Vec3 where
  x : ℚ
  y : ℚ
  z : ℚ
deriving DecidableEq, Repr

/-- Squared euclidean norm (THREE.Vector3.lengthSq). -/
def Vec3.normSq (v : Vec3) : ℚ := v.x * v.x + v.y * v.y + v.z * v.z

/-- `p.length()`: the euclidean norm, via the `sqrt` primitive. -/
def Vec3.lengthM (M : JsMath) (v : Vec3) : ℚ := M.sqrt v.normSq

/-- The closed enumeration of shape kinds (`ShapeType` in `types.ts`). -/
inductive ShapeType where
  | Sphere | Torus | Box | Gyroid | Mandelbulb | Twist | Atom
  | Julia | Heart | SchwarzP | Star
deriving DecidableEq, Repr

/-- One step of the Julia quaternion iteration from `isPointInShape`:
square the quaternion `(qw,qx,qy,qz)` (with `qw` the scalar part) and add the
constant `c = (cw,cx,cy,cz) = (-0.2, 0.6, 0, 0)` componentwise. -/
def juliaStep (q : ℚ × ℚ × ℚ × ℚ) : ℚ × ℚ × ℚ × ℚ :=
  let (qw, qx, qy, qz) := q
  let nw := qw * qw - qx * qx - qy * qy - qz * qz
  let nx := 2 * qw * qx
  let ny := 2 * qw * qy
  let nz := 2 * qw * qz
  (nw + (-0.2), nx + 0.6, ny + 0, nz + 0)

/-- Squared norm of a quaternion state. -/
def quatNormSq (q : ℚ × ℚ × ℚ × ℚ) : ℚ :=
  q.1 * q.1 + q.2.1 * q.2.1 + q.2.2.1 * q.2.2.1 + q.2.2.2 * q.2.2.2

/-- The Julia loop of `isPointInShape`: up to `fuel` iterations, break with
`bounded = false` as soon as the squared norm exceeds 4, otherwise apply
`juliaStep`; exhausting the fuel leaves `bounded = true`. -/
def juliaLoop : ℕ → ℚ × ℚ × ℚ × ℚ → Bool
  | 0, _ => true
  | fuel + 1, q =>
    if quatNormSq q > 4 then false
    else juliaLoop fuel (juliaStep q)

/-- The initial Julia quaternion built by the code:
`qw = p.x*1.5, qx = p.y*1.5, qy = p.z*1.5, qz = 0`. -/
def juliaInit (p : Vec3) : ℚ × ℚ × ℚ × ℚ :=
  (p.x * 1.5, p.y * 1.5, p.z * 1.5, 0)

/-- The Mandelbulb loop of `isPointInShape` (power-8 bulb, up to `fuel`
iterations): break with `bounded = false` when `r² > 4`; compute
`r = sqrt r²` and break (keeping `bounded = true`) when `r < 0.0001`, so the
division `zz/r` in the spherical conversion happens only when `r ≥ 0.0001`. -/
def mandelLoop (M : JsMath) (p : Vec3) : ℕ → ℚ × ℚ × ℚ → Bool
  | 0, _ => true
  | fuel + 1, (zx, zy, zz) =>
    let r2 := zx * zx + zy * zy + zz * zz
    if r2 > 4 then false
    else
      let r := M.sqrt r2
      if r < 0.0001 then true
      else
        let theta := M.acos (zz / r) * 8
        let phi := M.atan2 zy zx * 8
        let rn := M.pow r 8
        mandelLoop M p fuel
          (rn * M.sin theta * M.cos phi + p.x,
           rn * M.sin theta * M.sin phi + p.y,
           rn * M.cos theta + p.z)

/-- Instrumented copy of `mandelLoop` that additionally records, in order,
every divisor `r` actually used in the division `zz / r`. -/
def mandelLoopDiv (M : JsMath) (p : Vec3) : ℕ → ℚ × ℚ × ℚ → Bool × List ℚ
  | 0, _ => (true, [])
  | fuel + 1, (zx, zy, zz) =>
    let r2 := zx * zx + zy * zy + zz * zz
    if r2 > 4 then (false, [])
    else
      let r := M.sqrt r2
      if r < 0.0001 then (true, [])
      else
        let theta := M.acos (zz / r) * 8
        let phi := M.atan2 zy zx * 8
        let rn := M.pow r 8
        let rest := mandelLoopDiv M p fuel
          (rn * M.sin theta * M.cos phi + p.x,
           rn * M.sin theta * M.sin phi + p.y,
           rn * M.cos theta + p.z)
        (rest.1, r :: rest.2)

/-- `isPointInShape(shape, p, radius = 0.9)` from `PuzzleScene.tsx`: decides
whether the local-space point `p` lies inside the given shape kind. -/
def isPointInShape (M : JsMath) (shape : ShapeType) (p : Vec3)
    (radius : ℚ := 0.9) : Bool :=
  match shape with
  | .Sphere => decide (p.lengthM M ≤ radius)
  | .Box =>
      let limit := radius * 0.8
      decide (|p.x| ≤ limit) && decide (|p.y| ≤ limit) && decide (|p.z| ≤ limit)
  | .Torus =>
      let qx := M.sqrt (p.x * p.x + p.z * p.z) - 0.8
      let qy := p.y
      decide (qx * qx + qy * qy ≤ 0.32 * 0.32)
  | .Gyroid =>
      let s : ℚ := 3.5
      let val := M.sin (p.x * s) * M.cos (p.y * s) +
                 M.sin (p.y * s) * M.cos (p.z * s) +
                 M.sin (p.z * s) * M.cos (p.x * s)
      decide (|val| < 0.35) && decide (p.lengthM M < radius * 1.3)
  | .SchwarzP =>
      let s : ℚ := 3.0
      let val := M.cos (p.x * s) + M.cos (p.y * s) + M.cos (p.z * s)
      decide (|val| < 0.3) && decide (p.lengthM M < radius * 1.2)
  | .Mandelbulb =>
      if p.lengthM M > 1.2 then false
      else mandelLoop M p 6 (p.x, p.y, p.z)
  | .Julia =>
      if p.lengthM M > 1.2 then false
      else juliaLoop 7 (juliaInit p)
  | .Heart =>
      let sx := p.x * 1.3
      let sy := p.y * 1.3 + 0.1
      let sz := p.z * 1.3
      let a := sx * sx + 2.25 * sz * sz + sy * sy - 1
      let val := a * a * a - sx * sx * sy * sy * sy - 0.1125 * sz * sz * sy * sy * sy
      decide (val ≤ 0)
  | .Star =>
      let s : ℚ := 0.6
      let limit : ℚ := 1.2
      let val := M.pow |p.x| s + M.pow |p.y| s + M.pow |p.z| s
      decide (val ≤ limit)
  | .Twist =>
      let twistAmount : ℚ := 2.5
      let angle := p.y * twistAmount
      let ca := M.cos angle
      let sa := M.sin angle
      let tx := p.x * ca - p.z * sa
      let tz := p.x * sa + p.z * ca
      decide (|tx| < 0.4) && decide (|tz| < 0.4) && decide (|p.y| < 0.85)
  | .Atom =>
      let R : ℚ := 0.7
      let r : ℚ := 0.12
      let d1 := M.sqrt (p.x * p.x + p.y * p.y) - R
      let t1 := d1 * d1 + p.z * p.z
      let d2 := M.sqrt (p.y * p.y + p.z * p.z) - R
      let t2 := d2 * d2 + p.x * p.x
      let d3 := M.sqrt (p.x * p.x + p.z * p.z) - R
      let t3 := d3 * d3 + p.y * p.y
      let inside := decide (t1 < r * r) || decide (t2 < r * r) || decide (t3 < r * r)
      if p.lengthM M < 0.25 then true else inside

/-- A quaternion with components named as in THREE.Quaternion. -/
structure Quat where
  qx : ℚ
  qy : ℚ
  qz : ℚ
  qw : ℚ
deriving DecidableEq, Repr

/-- Modelled from THREE.Quaternion.setFromEuler for the default rotation
order XYZ: half-angle sines/cosines combined into a unit quaternion. -/
def quatFromEulerXYZ (M : JsMath) (e : Vec3) : Quat :=
  let c1 := M.cos (e.x / 2)
  let c2 := M.cos (e.y / 2)
  let c3 := M.cos (e.z / 2)
  let s1 := M.sin (e.x / 2)
  let s2 := M.sin (e.y / 2)
  let s3 := M.sin (e.z / 2)
  { qx := s1 * c2 * c3 + c1 * s2 * s3
    qy := c1 * s2 * c3 - s1 * c2 * s3
    qz := c1 * c2 * s3 + s1 * s2 * c3
    qw := c1 * c2 * c3 - s1 * s2 * s3 }

/-- A 4×4 matrix stored column-major as THREE.Matrix4.elements. -/
structure Mat4 where
  e0 : ℚ
  e1 : ℚ
  e2 : ℚ
  e3 : ℚ
  e4 : ℚ
  e5 : ℚ
  e6 : ℚ
  e7 : ℚ
  e8 : ℚ
  e9 : ℚ
  e10 : ℚ
  e11 : ℚ
  e12 : ℚ
  e13 : ℚ
  e14 : ℚ
  e15 : ℚ
deriving DecidableEq, Repr

/-- The identity matrix. -/
def idMat4 : Mat4 :=
  { e0 := 1, e1 := 0, e2 := 0, e3 := 0
    e4 := 0, e5 := 1, e6 := 0, e7 := 0
    e8 := 0, e9 := 0, e10 := 1, e11 := 0
    e12 := 0, e13 := 0, e14 := 0, e15 := 1 }

/-- The all-zero matrix (what THREE.Matrix4.invert produces for det = 0). -/
def zeroMat4 : Mat4 :=
  { e0 := 0, e1 := 0, e2 := 0, e3 := 0
    e4 := 0, e5 := 0, e6 := 0, e7 := 0
    e8 := 0, e9 := 0, e10 := 0, e11 := 0
    e12 := 0, e13 := 0, e14 := 0, e15 := 0 }

/-- Modelled from THREE.Matrix4.compose(position, quaternion, scale): the
rotation matrix of the quaternion, columns scaled by the uniform scale, with
the position in the translation column. -/
def composeMat4 (position : Vec3) (q : Quat) (scale : Vec3) : Mat4 :=
  let x2 := q.qx + q.qx
  let y2 := q.qy + q.qy
  let z2 := q.qz + q.qz
  let xx := q.qx * x2
  let xy := q.qx * y2
  let xz := q.qx * z2
  let yy := q.qy * y2
  let yz := q.qy * z2
  let zz := q.qz * z2
  let wx := q.qw * x2
  let wy := q.qw * y2
  let wz := q.qw * z2
  { e0 := (1 - (yy + zz)) * scale.x
    e1 := (xy + wz) * scale.x
    e2 := (xz - wy) * scale.x
    e3 := 0
    e4 := (xy - wz) * scale.y
    e5 := (1 - (xx + zz)) * scale.y
    e6 := (yz + wx) * scale.y
    e7 := 0
    e8 := (xz + wy) * scale.z
    e9 := (yz - wx) * scale.z
    e10 := (1 - (xx + yy)) * scale.z
    e11 := 0
    e12 := position.x
    e13 := position.y
    e14 := position.z
    e15 := 1 }

/-- Modelled from THREE.Matrix4.invert: cofactor (adjugate) inverse of a
general 4×4 matrix; when the determinant is zero the result is the zero
matrix, as in the library. -/
def Mat4.invert (m : Mat4) : Mat4 :=
  let i0 := m.e5 * m.e10 * m.e15 - m.e5 * m.e11 * m.e14 - m.e9 * m.e6 * m.e15 +
            m.e9 * m.e7 * m.e14 + m.e13 * m.e6 * m.e11 - m.e13 * m.e7 * m.e10
  let i4 := -m.e4 * m.e10 * m.e15 + m.e4 * m.e11 * m.e14 + m.e8 * m.e6 * m.e15 -
            m.e8 * m.e7 * m.e14 - m.e12 * m.e6 * m.e11 + m.e12 * m.e7 * m.e10
  let i8 := m.e4 * m.e9 * m.e15 - m.e4 * m.e11 * m.e13 - m.e8 * m.e5 * m.e15 +
            m.e8 * m.e7 * m.e13 + m.e12 * m.e5 * m.e11 - m.e12 * m.e7 * m.e9
  let i12 := -m.e4 * m.e9 * m.e14 + m.e4 * m.e10 * m.e13 + m.e8 * m.e5 * m.e14 -
             m.e8 * m.e6 * m.e13 - m.e12 * m.e5 * m.e10 + m.e12 * m.e6 * m.e9
  let i1 := -m.e1 * m.e10 * m.e15 + m.e1 * m.e11 * m.e14 + m.e9 * m.e2 * m.e15 -
            m.e9 * m.e3 * m.e14 - m.e13 * m.e2 * m.e11 + m.e13 * m.e3 * m.e10
  let i5 := m.e0 * m.e10 * m.e15 - m.e0 * m.e11 * m.e14 - m.e8 * m.e2 * m.e15 +
            m.e8 * m.e3 * m.e14 + m.e12 * m.e2 * m.e11 - m.e12 * m.e3 * m.e10
  let i9 := -m.e0 * m.e9 * m.e15 + m.e0 * m.e11 * m.e13 + m.e8 * m.e1 * m.e15 -
            m.e8 * m.e3 * m.e13 - m.e12 * m.e1 * m.e11 + m.e12 * m.e3 * m.e9
  let i13 := m.e0 * m.e9 * m.e14 - m.e0 * m.e10 * m.e13 - m.e8 * m.e1 * m.e14 +
             m.e8 * m.e2 * m.e13 + m.e12 * m.e1 * m.e10 - m.e12 * m.e2 * m.e9
  let i2 := m.e1 * m.e6 * m.e15 - m.e1 * m.e7 * m.e14 - m.e5 * m.e2 * m.e15 +
            m.e5 * m.e3 * m.e14 + m.e13 * m.e2 * m.e7 - m.e13 * m.e3 * m.e6
  let i6 := -m.e0 * m.e6 * m.e15 + m.e0 * m.e7 * m.e14 + m.e4 * m.e2 * m.e15 -
            m.e4 * m.e3 * m.e14 - m.e12 * m.e2 * m.e7 + m.e12 * m.e3 * m.e6
  let i10 := m.e0 * m.e5 * m.e15 - m.e0 * m.e7 * m.e13 - m.e4 * m.e1 * m.e15 +
             m.e4 * m.e3 * m.e13 + m.e12 * m.e1 * m.e7 - m.e12 * m.e3 * m.e5
  let i14 := -m.e0 * m.e5 * m.e14 + m.e0 * m.e6 * m.e13 + m.e4 * m.e1 * m.e14 -
             m.e4 * m.e2 * m.e13 - m.e12 * m.e1 * m.e6 + m.e12 * m.e2 * m.e5
  let i3 := -m.e1 * m.e6 * m.e11 + m.e1 * m.e7 * m.e10 + m.e5 * m.e2 * m.e11 -
            m.e5 * m.e3 * m.e10 - m.e9 * m.e2 * m.e7 + m.e9 * m.e3 * m.e6
  let i7 := m.e0 * m.e6 * m.e11 - m.e0 * m.e7 * m.e10 - m.e4 * m.e2 * m.e11 +
            m.e4 * m.e3 * m.e10 + m.e8 * m.e2 * m.e7 - m.e8 * m.e3 * m.e6
  let i11 := -m.e0 * m.e5 * m.e11 + m.e0 * m.e7 * m.e9 + m.e4 * m.e1 * m.e11 -
             m.e4 * m.e3 * m.e9 - m.e8 * m.e1 * m.e7 + m.e8 * m.e3 * m.e5
  let i15 := m.e0 * m.e5 * m.e10 - m.e0 * m.e6 * m.e9 - m.e4 * m.e1 * m.e10 +
             m.e4 * m.e2 * m.e9 + m.e8 * m.e1 * m.e6 - m.e8 * m.e2 * m.e5
  let det := m.e0 * i0 + m.e1 * i4 + m.e2 * i8 + m.e3 * i12
  if det = 0 then zeroMat4
  else
    { e0 := i0 / det, e1 := i1 / det, e2 := i2 / det, e3 := i3 / det
      e4 := i4 / det, e5 := i5 / det, e6 := i6 / det, e7 := i7 / det
      e8 := i8 / det, e9 := i9 / det, e10 := i10 / det, e11 := i11 / det
      e12 := i12 / det, e13 := i13 / det, e14 := i14 / det, e15 := i15 / det }

/-- Modelled from THREE.Vector3.applyMatrix4: homogeneous application with
perspective divide by `w`. -/
def applyMat4 (m : Mat4) (v : Vec3) : Vec3 :=
  let w := 1 / (m.e3 * v.x + m.e7 * v.y + m.e11 * v.z + m.e15)
  { x := (m.e0 * v.x + m.e4 * v.y + m.e8 * v.z + m.e12) * w
    y := (m.e1 * v.x + m.e5 * v.y + m.e9 * v.z + m.e13) * w
    z := (m.e2 * v.x + m.e6 * v.y + m.e10 * v.z + m.e14) * w }

/-- One placed shape instance in Designer mode (`ShapeDesignElement` in
`types.ts`; the opaque UI id is irrelevant to the kernel and omitted). -/
structure ShapeDesignElement where
  type : ShapeType
  position : Vec3
  rotation : Vec3
  scale : ℚ
  enabled : Bool
deriving DecidableEq, Repr

/-- `PuzzleMode` from `types.ts`. -/
inductive PuzzleMode where
  | SINGLE
  | DESIGNER
deriving DecidableEq, Repr

/-- The parameters `rebuildPuzzle` reads (`PuzzleParams` restricted to the
fields the rebuild consumes; the animation-only fields are modelled where the
animation tick is). -/
structure PuzzleParams where
  mode : PuzzleMode
  elements : List ShapeDesignElement
  shape : ShapeType
  resolution : ℕ
deriving DecidableEq, Repr

/-- The inverse placement matrix precomputed per element in `rebuildPuzzle`:
`Object3D` with the element's position, XYZ Euler rotation, and uniform
scale, composed and inverted. -/
def elementInvMatrix (M : JsMath) (el : ShapeDesignElement) : Mat4 :=
  (composeMat4 el.position (quatFromEulerXYZ M el.rotation)
    ⟨el.scale, el.scale, el.scale⟩).invert

/-- Grid coordinate of `rebuildPuzzle`: `-half + (i + 0.5) * step` with
`half = 1` and `step = 2 / resolution`. -/
def gridCoord (resolution : ℕ) (i : ℕ) : ℚ :=
  -1 + ((i : ℚ) + 0.5) * (2 / (resolution : ℚ))

/-- The sampled cell centers, in the `ix`/`iy`/`iz` nesting order of the
triple loop in `rebuildPuzzle`. -/
def gridCenters (resolution : ℕ) : List Vec3 :=
  (List.range resolution).flatMap fun ix =>
    (List.range resolution).flatMap fun iy =>
      (List.range resolution).map fun iz =>
        ⟨gridCoord resolution ix, gridCoord resolution iy, gridCoord resolution iz⟩

/-- The Designer-mode union test of `rebuildPuzzle`: some element of the
precomputed list is enabled and contains the grid point carried into its
local frame by the element's inverse matrix (disabled elements are skipped). -/
def designerInside (M : JsMath) (els : List (ShapeDesignElement × Mat4))
    (p : Vec3) : Bool :=
  els.any fun ed => ed.1.enabled && isPointInShape M ed.1.type (applyMat4 ed.2 p)

/-- The per-element precomputation in `rebuildPuzzle`: every element (also a
disabled one) is paired with its inverse placement matrix. -/
def precomputedElements (M : JsMath) (els : List ShapeDesignElement) :
    List (ShapeDesignElement × Mat4) :=
  els.map fun el => (el, elementInvMatrix M el)

/-- The surviving cell centers of a rebuild, in grid order: Single mode tests
the chosen shape directly, Designer mode tests the union of the enabled
elements. -/
def survivors (M : JsMath) (pp : PuzzleParams) : List Vec3 :=
  (gridCenters pp.resolution).filter fun p =>
    match pp.mode with
    | .SINGLE => isPointInShape M pp.shape p
    | .DESIGNER => designerInside M (precomputedElements M pp.elements) p

/-- `maxDist` of `rebuildPuzzle`: the largest `pos.length()` among the
surviving positions, starting from 0. -/
def maxDistOf (M : JsMath) (positions : List Vec3) : ℚ :=
  positions.foldl (fun acc pos => if pos.lengthM M > acc then pos.lengthM M else acc) 0

/-- THREE.Vector3.normalize: divide by the length, or by 1 when the length
is zero (the `|| 1` fallback of `divideScalar`). -/
def normalizeV (M : JsMath) (v : Vec3) : Vec3 :=
  let l := v.lengthM M
  let d := if l = 0 then 1 else l
  ⟨v.x / d, v.y / d, v.z / d⟩

/-- `outward` of `rebuildPuzzle`: the normalized rest position, replaced by
`(0,1,0)` when the normalized vector has squared length below `1e-6`. -/
def outwardOf (M : JsMath) (pos : Vec3) : Vec3 :=
  let outward := normalizeV M pos
  if outward.normSq < 1e-6 then ⟨0, 1, 0⟩ else outward

/-- The hue/saturation/lightness triple handed to `color.setHSL` for a piece:
`(0.58 + 0.12 t, 0.7, 0.5 + 0.12 t)` with `t = pos.length() / maxDist`
(or `t = 0` when `maxDist` is not positive). -/
def baseColorOf (M : JsMath) (maxDist : ℚ) (pos : Vec3) : ℚ × ℚ × ℚ :=
  let t := if maxDist > 0 then pos.lengthM M / maxDist else 0
  (0.58 + 0.12 * t, 0.7, 0.5 + 0.12 * t)

/-- One record of `pieceData` (the mutable render-state fields of the
original record reduce to the build-time attributes plus the pick flag). -/
structure Piece where
  position : Vec3
  outward : Vec3
  randomDir : Vec3
  randPhase : ℚ
  randAmp : ℚ
  picked : Bool
  baseColor : ℚ × ℚ × ℚ
deriving DecidableEq, Repr

/-- The piece built for surviving position number `i`: `Math.random()` is the
stream value at the consumption index, five draws per piece in source order
(three for the jitter direction, one for the phase, one for the amplitude). -/
def mkPiece (M : JsMath) (stream : ℕ → ℚ) (i : ℕ) (maxDist : ℚ)
    (pos : Vec3) : Piece :=
  { position := pos
    outward := outwardOf M pos
    randomDir := normalizeV M
      ⟨stream (5 * i) * 2 - 1, stream (5 * i + 1) * 2 - 1, stream (5 * i + 2) * 2 - 1⟩
    randPhase := stream (5 * i + 3) * M.pi * 2
    randAmp := 0.5 + stream (5 * i + 4) * 0.7
    picked := false
    baseColor := baseColorOf M maxDist pos }

/-- The `for i in 0..count` loop of `rebuildPuzzle` building `pieceData`. -/
def buildPieces (M : JsMath) (stream : ℕ → ℚ) (maxDist : ℚ) :
    ℕ → List Vec3 → List Piece
  | _, [] => []
  | i, pos :: rest =>
    mkPiece M stream i maxDist pos :: buildPieces M stream maxDist (i + 1) rest

/-- `rebuildPuzzle` restricted to its data result: the fresh `pieceData`
array for the given parameters and random stream. -/
def rebuildPieces (M : JsMath) (pp : PuzzleParams) (stream : ℕ → ℚ) :
    List Piece :=
  let positions := survivors M pp
  buildPieces M stream (maxDistOf M positions) 0 positions

/-- The built instanced mesh as the export path sees it: the per-instance
matrices readable through `getMatrixAt`. -/
structure PuzzleMeshData where
  matrices : List Mat4
deriving DecidableEq, Repr

/-- Result of an `exportSTL` call: either an early return with no download
and no state change, or a download of the merged geometry (modelled by the
list of instance matrices baked into copies of the base cell geometry). -/
inductive ExportResult where
  | noop
  | download (geometries : List Mat4)
deriving DecidableEq, Repr

/-- `exportSTL` from `PuzzleScene.tsx`: return immediately when no mesh is
built; otherwise collect one transformed geometry per `pieceData` entry and
return immediately when that collection is empty; only then merge, serialize
and download. -/
def exportSTL (puzzleMesh : Option PuzzleMeshData) (pieceData : List Piece) :
    ExportResult :=
  match puzzleMesh with
  | none => .noop
  | some mesh =>
    let geometries := (List.range pieceData.length).map fun i =>
      mesh.matrices.getD i idMat4
    if geometries.length = 0 then .noop
    else .download geometries

/-- The mutable physics record of the scene. -/
structure PhysicsState where
  currentExplode : ℚ
  currentNoise : ℚ
  targetExplode : ℚ
  targetNoise : ℚ
deriving DecidableEq, Repr

/-- The smoothing step `current += (target - current) * 0.08` of `animate`. -/
def animLerp (target current : ℚ) : ℚ :=
  current + (target - current) * 0.08

/-- The local (per-tick) explode target of `animate`: the stored target,
boosted and clamped when audio is enabled and a positive level is present. -/
def boostedTargetExplode (ps : PhysicsState) (audioEnabled : Bool)
    (audioLevel : ℚ) : ℚ :=
  if audioEnabled && decide (audioLevel > 0) then
    min (ps.targetExplode + audioLevel * 0.9) 1.5
  else ps.targetExplode

/-- The local (per-tick) noise target of `animate`, as for the explode one. -/
def boostedTargetNoise (ps : PhysicsState) (audioEnabled : Bool)
    (audioLevel : ℚ) : ℚ :=
  if audioEnabled && decide (audioLevel > 0) then
    min (ps.targetNoise + audioLevel * 0.8) 1.0
  else ps.targetNoise

/-- The physics part of one `animate` tick (lines 433-440): read the targets
into locals, apply the audio boost to the locals only, and move the current
values by the smoothing step; the stored targets are written only by the
params effect, never here. -/
def animateTick (ps : PhysicsState) (audioEnabled : Bool) (audioLevel : ℚ) :
    PhysicsState :=
  { ps with
    currentExplode := animLerp (boostedTargetExplode ps audioEnabled audioLevel) ps.currentExplode
    currentNoise := animLerp (boostedTargetNoise ps audioEnabled audioLevel) ps.currentNoise }

/-- Single-mode Box parameters at resolution 10 (the element list is unused
in Single mode). -/
def boxParams10 : PuzzleParams := ⟨.SINGLE, [], .Box, 10⟩

/-- Modelled from the spec: the Box regression-fixture formula, a grid-cell
center survives iff `max(|x|,|y|,|z|) ≤ 0.72`. -/
def specBoxCenter (c : Vec3) : Bool :=
  decide (max |c.x| (max |c.y| |c.z|) ≤ 0.72)

/-- The piece-building loop emits exactly one piece per surviving position,
for any start index. -/
theorem buildPieces_length (M : JsMath) (stream : ℕ → ℚ) (d : ℚ) :
    ∀ (i : ℕ) (l : List Vec3), (buildPieces M stream d i l).length = l.length := by
  intro i l
  induction l generalizing i with
  | nil => rfl
  | cons pos rest ih => simp [buildPieces, ih]

section C1Eval

attribute [local semireducible] Rat.add Rat.mul Rat.sub Rat.inv Rat.ofScientific

set_option maxRecDepth 1000000

/-- C1: a rebuild with resolution 10, mode Single, shape Box produces as many
pieces as there are step-0.2 grid-cell centers over `[-1,1]³` satisfying
`max(|x|,|y|,|z|) ≤ 0.72`, namely exactly 512, for every interpretation of
the math primitives and every random stream. -/
theorem C1_single_box_res10_count (M : JsMath) (stream : ℕ → ℚ) :
    (rebuildPieces M boxParams10 stream).length
      = ((gridCenters 10).filter specBoxCenter).length ∧
    (rebuildPieces M boxParams10 stream).length = 512 := by
  have hre : (rebuildPieces M boxParams10 stream).length
      = (survivors M boxParams10).length := by
    unfold rebuildPieces
    exact buildPieces_length M stream _ 0 _
  have hsv : (survivors M boxParams10).length = 512 := rfl
  have hspec : ((gridCenters 10).filter specBoxCenter).length = 512 := rfl
  exact ⟨by rw [hre, hsv, hspec], by rw [hre, hsv]⟩

end C1Eval

/-- A concrete interpretation of the math primitives used to instantiate
universally quantified theorems: every function is constant (`cos` returns 1
so that the zero angle is interpreted exactly). -/
def jsConst : JsMath :=
  { sqrt := fun _ => 0, sin := fun _ => 0, cos := fun _ => 1,
    acos := fun _ => 0, atan2 := fun _ _ => 0, pow := fun _ _ => 0, pi := 0 }

/-- C2: in Designer mode, a grid-cell center that at least one enabled
element contains in its local frame survives, and one all of whose containing
elements are disabled does not survive (disabled elements never contribute
membership). -/
theorem C2_designer_union_membership (M : JsMath) (pp : PuzzleParams) (p : Vec3)
    (hmode : pp.mode = .DESIGNER) (hmem : p ∈ gridCenters pp.resolution) :
    ((∃ el ∈ pp.elements, el.enabled = true ∧
        isPointInShape M el.type (applyMat4 (elementInvMatrix M el) p) = true) →
      p ∈ survivors M pp) ∧
    ((∀ el ∈ pp.elements,
        isPointInShape M el.type (applyMat4 (elementInvMatrix M el) p) = true →
        el.enabled = false) →
      p ∉ survivors M pp) := by
  constructor
  · rintro ⟨el, hel, hen, hin⟩
    simp only [survivors, hmode, List.mem_filter]
    refine ⟨hmem, ?_⟩
    simp only [designerInside, List.any_eq_true, precomputedElements, List.mem_map]
    exact ⟨(el, elementInvMatrix M el), ⟨el, hel, rfl⟩, by simp [hen, hin]⟩
  · intro hall hmem2
    simp only [survivors, hmode, List.mem_filter] at hmem2
    obtain ⟨-, hins⟩ := hmem2
    simp only [designerInside, List.any_eq_true, precomputedElements,
      List.mem_map] at hins
    obtain ⟨ed, ⟨el, hel, hed_eq⟩, hed⟩ := hins
    subst hed_eq
    rw [Bool.and_eq_true] at hed
    have hdis := hall el hel hed.2
    rw [hdis] at hed
    exact absurd hed.1 (by simp)

/-- A Box element placed at the origin with no rotation and unit scale. -/
def boxElement0 : ShapeDesignElement := ⟨.Box, ⟨0, 0, 0⟩, ⟨0, 0, 0⟩, 1, true⟩

/-- Designer-mode parameters with the single enabled Box element, at
resolution 2. -/
def designerBoxParams2 : PuzzleParams := ⟨.DESIGNER, [boxElement0], .Sphere, 2⟩

section C2Eval

attribute [local semireducible] Rat.add Rat.mul Rat.sub Rat.inv Rat.ofScientific

set_option maxRecDepth 100000

/-- Witness for C2 at a concrete input: the grid center `(-1/2,-1/2,-1/2)` of
the resolution-2 grid lies in the enabled origin Box element's local shape
and indeed survives the Designer rebuild. -/
theorem C2_designer_union_membership_witness :
    (⟨-1/2, -1/2, -1/2⟩ : Vec3) ∈ survivors jsConst designerBoxParams2 :=
  (C2_designer_union_membership jsConst designerBoxParams2 ⟨-1/2, -1/2, -1/2⟩
    rfl (by decide)).1 ⟨boxElement0, by decide, by decide, by decide⟩

end C2Eval

/-- The default Designer element: an enabled Sphere at the origin with no
rotation and unit scale. -/
def sphereElement0 : ShapeDesignElement := ⟨.Sphere, ⟨0, 0, 0⟩, ⟨0, 0, 0⟩, 1, true⟩

/-- Designer-mode parameters whose element list is exactly the origin Sphere
element, at resolution 10. -/
def designerSphereParams10 : PuzzleParams := ⟨.DESIGNER, [sphereElement0], .Sphere, 10⟩

/-- Single-mode Sphere parameters at resolution 10. -/
def singleSphereParams10 : PuzzleParams := ⟨.SINGLE, [], .Sphere, 10⟩

/-- Applying the identity matrix leaves every point unchanged (the
homogeneous divide is by 1). -/
theorem applyMat4_idMat4 (v : Vec3) : applyMat4 idMat4 v = v := by
  unfold applyMat4 idMat4
  ext <;> simp

/-- Under the two analytic facts `sin 0 = 0` and `cos 0 = 1`, the inverse
placement matrix of the origin Sphere element is the identity. -/
theorem elementInvMatrix_sphereElement0 (M : JsMath)
    (h1 : M.sin 0 = 0) (h2 : M.cos 0 = 1) :
    elementInvMatrix M sphereElement0 = idMat4 := by
  have hq : quatFromEulerXYZ M ⟨0, 0, 0⟩ = ⟨0, 0, 0, 1⟩ := by
    simp [quatFromEulerXYZ, zero_div, h1, h2]
  have hc : composeMat4 ⟨0, 0, 0⟩ ⟨0, 0, 0, 1⟩ ⟨1, 1, 1⟩ = idMat4 := by
    simp [composeMat4, idMat4]
  have hi : Mat4.invert idMat4 = idMat4 := by
    unfold Mat4.invert zeroMat4 idMat4
    norm_num
  show (composeMat4 sphereElement0.position
    (quatFromEulerXYZ M sphereElement0.rotation)
    ⟨sphereElement0.scale, sphereElement0.scale, sphereElement0.scale⟩).invert = idMat4
  show (composeMat4 ⟨0, 0, 0⟩ (quatFromEulerXYZ M ⟨0, 0, 0⟩) ⟨1, 1, 1⟩).invert = idMat4
  rw [hq, hc, hi]

/-- C3: a Designer rebuild whose element list is exactly the enabled origin
Sphere at unit scale produces, at resolution 10, the same list of surviving
cell centers (hence the same piece count) as a Single-mode Sphere rebuild:
the identity transform does not alter membership of any grid point. -/
theorem C3_designer_identity_equals_single (M : JsMath) (stream : ℕ → ℚ)
    (h1 : M.sin 0 = 0) (h2 : M.cos 0 = 1) :
    survivors M designerSphereParams10 = survivors M singleSphereParams10 ∧
    (rebuildPieces M designerSphereParams10 stream).length
      = (rebuildPieces M singleSphereParams10 stream).length := by
  have hsv : survivors M designerSphereParams10 = survivors M singleSphereParams10 := by
    unfold survivors designerSphereParams10 singleSphereParams10
    apply List.filter_congr
    intro p _
    show designerInside M (precomputedElements M [sphereElement0]) p
        = isPointInShape M .Sphere p
    simp only [designerInside, precomputedElements, List.map_cons, List.map_nil,
      List.any_cons, List.any_nil, Bool.or_false]
    rw [elementInvMatrix_sphereElement0 M h1 h2, applyMat4_idMat4]
    show (true && isPointInShape M .Sphere p) = isPointInShape M .Sphere p
    exact Bool.true_and _
  refine ⟨hsv, ?_⟩
  unfold rebuildPieces
  rw [buildPieces_length, buildPieces_length, hsv]

/-- Witness for C3 at the concrete constant interpretation of the math
primitives, for which `sin 0 = 0` and `cos 0 = 1` hold definitionally. -/
theorem C3_designer_identity_equals_single_witness :
    survivors jsConst designerSphereParams10 = survivors jsConst singleSphereParams10 :=
  (C3_designer_identity_equals_single jsConst (fun _ => 0) rfl rfl).1

/-- The Julia loop returns `bounded = true` exactly when every one of the
`fuel` checked states (the state before each squaring) has squared norm at
most 4. -/
theorem juliaLoop_iff : ∀ (fuel : ℕ) (q : ℚ × ℚ × ℚ × ℚ),
    juliaLoop fuel q = true ↔ ∀ k < fuel, quatNormSq (juliaStep^[k] q) ≤ 4
  | 0, q => by simp [juliaLoop]
  | fuel + 1, q => by
    rw [juliaLoop]
    by_cases h : quatNormSq q > 4
    · rw [if_pos h]
      constructor
      · intro hF
        exact absurd hF (by simp)
      · intro hall
        have h0 := hall 0 (Nat.succ_pos _)
        rw [Function.iterate_zero_apply] at h0
        exact absurd h (not_lt.mpr h0)
    · rw [if_neg h]
      rw [juliaLoop_iff fuel (juliaStep q)]
      constructor
      · intro hall k hk
        cases k with
        | zero =>
          rw [Function.iterate_zero_apply]
          exact le_of_not_lt h
        | succ k =>
          rw [Function.iterate_succ_apply]
          exact hall k (Nat.lt_of_succ_lt_succ hk)
      · intro hall k hk
        rw [← Function.iterate_succ_apply]
        exact hall (k + 1) (Nat.succ_lt_succ hk)

/-- Modelled from the spec (the C4 wording): start from the quaternion
`p·1.5` with w-component 0 — scalar part zero and vector part `1.5·p` — and
accept iff the squared norm of each of the 7 checked states stays at most 4,
rejecting points with `‖p‖ > 1.2` (exact comparison, `‖p‖² > 1.44`). -/
def juliaClaimInside (p : Vec3) : Bool :=
  if p.normSq > 1.44 then false
  else (List.range 7).all fun k =>
    decide (quatNormSq (juliaStep^[k] (0, p.x * 1.5, p.y * 1.5, p.z * 1.5)) ≤ 4)

/-- The bounded-orbit formulation with the code's actual component
arrangement (`juliaInit`: scalar part `p.x*1.5`, last component 0). -/
def juliaSpecBounded (p : Vec3) : Bool :=
  (List.range 7).all fun k =>
    decide (quatNormSq (juliaStep^[k] (juliaInit p)) ≤ 4)

section C4Eval

attribute [local semireducible] Rat.add Rat.mul Rat.sub Rat.inv Rat.ofScientific

set_option maxRecDepth 100000

/-- Counterexample to C4 as stated: at `p = (-1/2, -3/10, -3/10)` (inside
the 1.2 ball), the code's Julia test rejects `p` while the claim's iteration
— scalar (w) component 0, vector part `1.5·p` — accepts it: the code in fact
stores `1.5·p` in the components `(w, x, y)` and the zero in `z`. -/
theorem C4_julia_counterexample :
    isPointInShape jsConst .Julia ⟨-1/2, -3/10, -3/10⟩ = false ∧
    juliaClaimInside ⟨-1/2, -3/10, -3/10⟩ = true ∧
    Vec3.normSq ⟨-1/2, -3/10, -3/10⟩ ≤ 1.44 := by
  refine ⟨by decide, by decide, by decide⟩

end C4Eval

/-- C4 (amended): assuming the sqrt primitive decides the 1.2-ball test
exactly, the Julia membership test equals: reject when `‖p‖² > 1.44`,
otherwise iterate the quaternion square-plus-c map, `c = (-0.2, 0.6, 0, 0)`,
for 7 iterations from the quaternion whose scalar component is `1.5·p.x`,
next two components `1.5·p.y` and `1.5·p.z`, and last component 0, accepting
iff every checked state keeps squared norm at most 4. -/
theorem C4_julia_characterization (M : JsMath) (p : Vec3)
    (hs : M.sqrt p.normSq > 1.2 ↔ p.normSq > 1.44) :
    isPointInShape M .Julia p
      = if p.normSq > 1.44 then false else juliaSpecBounded p := by
  show (if p.lengthM M > 1.2 then false else juliaLoop 7 (juliaInit p)) = _
  rw [Vec3.lengthM]
  by_cases h : p.normSq > 1.44
  · rw [if_pos (hs.mpr h), if_pos h]
  · rw [if_neg (fun hc => h (hs.mp hc)), if_neg h]
    rw [Bool.eq_iff_iff, juliaLoop_iff, juliaSpecBounded, List.all_eq_true]
    constructor
    · intro hall k hk
      rw [decide_eq_true_eq]
      exact hall k (List.mem_range.mp hk)
    · intro hall k hk
      have := hall k (List.mem_range.mpr hk)
      rwa [decide_eq_true_eq] at this

section C4WitnessEval

attribute [local semireducible] Rat.add Rat.mul Rat.sub Rat.inv Rat.ofScientific

set_option maxRecDepth 100000

/-- Witness for the amended C4 theorem at the origin under the constant
primitive interpretation (whose `sqrt` agrees with the exact 1.2-ball test
there). -/
theorem C4_julia_characterization_witness :
    isPointInShape jsConst .Julia ⟨0, 0, 0⟩
      = if Vec3.normSq ⟨0, 0, 0⟩ > 1.44 then false else juliaSpecBounded ⟨0, 0, 0⟩ :=
  C4_julia_characterization jsConst ⟨0, 0, 0⟩ (by decide)

end C4WitnessEval

/-- The rest positions of the built pieces are exactly the surviving
positions, independent of the random stream and of the start index. -/
theorem buildPieces_map_position (M : JsMath) (stream : ℕ → ℚ) (d : ℚ) :
    ∀ (i : ℕ) (l : List Vec3),
      (buildPieces M stream d i l).map Piece.position = l := by
  intro i l
  induction l generalizing i with
  | nil => rfl
  | cons pos rest ih => simp [buildPieces, mkPiece, ih]

/-- The base colors of the built pieces are a deterministic function of the
surviving positions and the maximal distance, independent of the random
stream and of the start index. -/
theorem buildPieces_map_baseColor (M : JsMath) (stream : ℕ → ℚ) (d : ℚ) :
    ∀ (i : ℕ) (l : List Vec3),
      (buildPieces M stream d i l).map Piece.baseColor = l.map (baseColorOf M d) := by
  intro i l
  induction l generalizing i with
  | nil => rfl
  | cons pos rest ih => simp [buildPieces, mkPiece, ih]

/-- C5: two rebuilds with identical parameters but different random streams
produce the same sequence of surviving rest positions and the same base
colors; only the jitter attributes can differ. -/
theorem C5_rebuild_deterministic (M : JsMath) (pp : PuzzleParams)
    (s1 s2 : ℕ → ℚ) :
    (rebuildPieces M pp s1).map Piece.position
      = (rebuildPieces M pp s2).map Piece.position ∧
    (rebuildPieces M pp s1).map Piece.baseColor
      = (rebuildPieces M pp s2).map Piece.baseColor := by
  unfold rebuildPieces
  rw [buildPieces_map_position, buildPieces_map_position,
    buildPieces_map_baseColor, buildPieces_map_baseColor]
  exact ⟨rfl, rfl⟩

/-- C6: the animate tick updates the current values by the fixed smoothing
step, the step contracts the distance to a constant target by the exact
factor 23/25 = 0.92, and from any initial value the iterated step brings the
current value within 1/1000 of the target from some tick count on. -/
theorem C6_smoothing_convergence (target c0 : ℚ) :
    (∀ (ps : PhysicsState) (lvl : ℚ),
      (animateTick ps false lvl).currentExplode
          = animLerp ps.targetExplode ps.currentExplode ∧
      (animateTick ps false lvl).currentNoise
          = animLerp ps.targetNoise ps.currentNoise) ∧
    (∀ c, |animLerp target c - target| = 23/25 * |c - target|) ∧
    ∃ N, ∀ n, N ≤ n → |(animLerp target)^[n] c0 - target| ≤ 1/1000 := by
  have habs : ∀ c : ℚ, |animLerp target c - target| = 23/25 * |c - target| := by
    intro c
    have h : animLerp target c - target = 23/25 * (c - target) := by
      unfold animLerp
      ring_nf
    rw [h, abs_mul]
    norm_num
  refine ⟨fun ps lvl => ⟨rfl, rfl⟩, habs, ?_⟩
  have hiter : ∀ m : ℕ,
      |(animLerp target)^[m] c0 - target| = (23/25) ^ m * |c0 - target| := by
    intro m
    induction m with
    | zero => simp
    | succ m ih =>
      rw [Function.iterate_succ_apply', habs, ih, pow_succ]
      ring
  have hd : (0:ℚ) ≤ |c0 - target| := abs_nonneg _
  have hε : (0:ℚ) < (1/1000) / (|c0 - target| + 1) := by positivity
  obtain ⟨N, hN⟩ := exists_pow_lt_of_lt_one hε (by norm_num : (23/25:ℚ) < 1)
  refine ⟨N, fun n hn => ?_⟩
  rw [hiter n]
  calc (23/25:ℚ) ^ n * |c0 - target|
      ≤ (23/25) ^ N * |c0 - target| :=
        mul_le_mul_of_nonneg_right
          (pow_le_pow_of_le_one (by norm_num) (by norm_num) hn) hd
    _ ≤ ((1/1000) / (|c0 - target| + 1)) * |c0 - target| :=
        mul_le_mul_of_nonneg_right hN.le hd
    _ ≤ 1/1000 := by
        rw [div_mul_eq_mul_div, div_le_iff₀ (by positivity)]
        nlinarith [hd]

/-- Witness for C6 at a concrete input: one smoothing step from 0 toward
target 1 contracts the distance by exactly 23/25. -/
theorem C6_smoothing_convergence_witness :
    |animLerp 1 0 - 1| = 23/25 * |0 - 1| :=
  (C6_smoothing_convergence 1 0).2.1 0

/-- The instrumented Mandelbulb loop computes the same boundedness answer as
the plain one. -/
theorem mandelLoopDiv_fst (M : JsMath) (p : Vec3) :
    ∀ (fuel : ℕ) (st : ℚ × ℚ × ℚ),
      (mandelLoopDiv M p fuel st).1 = mandelLoop M p fuel st
  | 0, _ => rfl
  | fuel + 1, (zx, zy, zz) => by
    simp only [mandelLoopDiv, mandelLoop]
    split
    · rfl
    · split
      · rfl
      · exact mandelLoopDiv_fst M p fuel _

/-- Every divisor used by the Mandelbulb spherical conversion is at least
0.0001: the loop breaks on `r < 0.0001` before dividing. -/
theorem mandelLoopDiv_divisors (M : JsMath) (p : Vec3) :
    ∀ (fuel : ℕ) (st : ℚ × ℚ × ℚ) (d : ℚ),
      d ∈ (mandelLoopDiv M p fuel st).2 → 0.0001 ≤ d
  | 0, _, d => by simp [mandelLoopDiv]
  | fuel + 1, (zx, zy, zz), d => by
    simp only [mandelLoopDiv]
    split
    · simp
    · split
      · simp
      · rename_i hr
        intro hmem
        rw [List.mem_cons] at hmem
        rcases hmem with rfl | hmem
        · exact not_lt.mp hr
        · exact mandelLoopDiv_divisors M p fuel _ d hmem

/-- C7: the Mandelbulb branch of `isPointInShape` is the (total) boundedness
loop guarded by the 1.2-ball test, and on every numeric path the divisor of
the spherical-coordinate division `zz/r` is at least 0.0001, because the
loop breaks on `r < 0.0001` before converting — so no division-by-(near-)zero
is ever evaluated. -/
theorem C7_mandelbulb_division_guard (M : JsMath) (p : Vec3) (radius : ℚ) :
    isPointInShape M .Mandelbulb p radius
      = (if p.lengthM M > 1.2 then false
         else (mandelLoopDiv M p 6 (p.x, p.y, p.z)).1) ∧
    ∀ d ∈ (mandelLoopDiv M p 6 (p.x, p.y, p.z)).2, 0.0001 ≤ d := by
  constructor
  · show (if p.lengthM M > 1.2 then false
        else mandelLoop M p 6 (p.x, p.y, p.z)) = _
    rw [mandelLoopDiv_fst]
  · exact fun d hd => mandelLoopDiv_divisors M p 6 _ d hd

/-- A constant interpretation whose `sqrt` returns 1, driving the Mandelbulb
loop through its dividing branch. -/
def jsOne : JsMath :=
  { sqrt := fun _ => 1, sin := fun _ => 0, cos := fun _ => 1,
    acos := fun _ => 0, atan2 := fun _ _ => 0, pow := fun _ _ => 0, pi := 0 }

section C7Eval

attribute [local semireducible] Rat.add Rat.mul Rat.sub Rat.inv Rat.ofScientific

set_option maxRecDepth 100000

/-- Witness for C7: under `jsOne` at `p = (1,0,0)` the loop actually records
the divisor 1, and the theorem bounds it below by 0.0001. -/
theorem C7_mandelbulb_division_guard_witness : (0.0001 : ℚ) ≤ 1 :=
  (C7_mandelbulb_division_guard jsOne ⟨1, 0, 0⟩ 0.9).2 1 (by decide)

end C7Eval

/-- Membership in the sampled grid: each coordinate is the grid coordinate
of an index below the resolution. -/
theorem mem_gridCenters {res : ℕ} {p : Vec3} :
    p ∈ gridCenters res ↔ ∃ ix < res, ∃ iy < res, ∃ iz < res,
      p = ⟨gridCoord res ix, gridCoord res iy, gridCoord res iz⟩ := by
  simp only [gridCenters, List.mem_flatMap, List.mem_map, List.mem_range]
  constructor
  · rintro ⟨ix, hix, iy, hiy, iz, hiz, rfl⟩
    exact ⟨ix, hix, iy, hiy, iz, hiz, rfl⟩
  · rintro ⟨ix, hix, iy, hiy, iz, hiz, rfl⟩
    exact ⟨ix, hix, iy, hiy, iz, hiz, rfl⟩

/-- A grid coordinate is the integer `2i+1-res` over `res`. -/
theorem gridCoord_eq_int_div {res i : ℕ} (hres : 0 < res) :
    gridCoord res i = ((2 * (i : ℤ) + 1 - res : ℤ) : ℚ) / (res : ℚ) := by
  have hresQ : ((res : ℚ)) ≠ 0 := by
    exact_mod_cast hres.ne'
  unfold gridCoord
  field_simp
  ring

set_option maxHeartbeats 800000 in
/-- A nonzero grid coordinate has absolute value at least `1/res`, hence at
least `1/100000` at practical resolutions. -/
theorem gridCoord_abs_lb {res i : ℕ} (hi : i < res) (hres : res ≤ 100000)
    (hne : gridCoord res i ≠ 0) : 1/100000 ≤ |gridCoord res i| := by
  have hres0 : 0 < res := lt_of_le_of_lt (Nat.zero_le i) hi
  have hresQ : (0 : ℚ) < (res : ℚ) := by exact_mod_cast hres0
  have hresle : ((res : ℚ)) ≤ 100000 := by exact_mod_cast hres
  rw [gridCoord_eq_int_div hres0] at hne ⊢
  set k : ℤ := 2 * (i : ℤ) + 1 - res with hk
  have hkne : k ≠ 0 := by
    intro h0
    apply hne
    rw [h0]
    simp
  have habs : (1 : ℚ) ≤ |(k : ℚ)| := by
    have h1 : (1 : ℤ) ≤ |k| := Int.one_le_abs hkne
    exact_mod_cast h1
  rw [abs_div, abs_of_pos hresQ]
  have h2 : (1:ℚ) / (res:ℚ) ≤ |(k : ℚ)| / (res:ℚ) := by gcongr
  have h3 : (1:ℚ) / 100000 ≤ 1 / (res:ℚ) := one_div_le_one_div_of_le hresQ hresle
  linarith

/-- From a lower bound on `|c|`, a lower bound on `c·c`. -/
theorem coord_sq_lb {c : ℚ} (h : 1/100000 ≤ |c|) :
    1/10000000000 ≤ c * c := by
  have h2 := mul_self_le_mul_self (by norm_num : (0:ℚ) ≤ 1/100000) h
  rw [abs_mul_abs_self] at h2
  calc (1/10000000000 : ℚ) = (1/100000) * (1/100000) := by norm_num
    _ ≤ c * c := h2

/-- A grid center at a practical resolution is either exactly the origin or
has squared norm at least `1/10^10`. -/
theorem gridCenter_normSq_lb {res : ℕ} {p : Vec3} (hmem : p ∈ gridCenters res)
    (hres : res ≤ 100000) :
    p = ⟨0, 0, 0⟩ ∨ (1/10000000000 : ℚ) ≤ p.normSq := by
  obtain ⟨ix, hix, iy, hiy, iz, hiz, rfl⟩ := mem_gridCenters.mp hmem
  by_cases hx : gridCoord res ix = 0
  · by_cases hy : gridCoord res iy = 0
    · by_cases hz : gridCoord res iz = 0
      · left
        rw [hx, hy, hz]
      · right
        have h1 := coord_sq_lb (gridCoord_abs_lb hiz hres hz)
        unfold Vec3.normSq
        nlinarith [mul_self_nonneg (gridCoord res ix), mul_self_nonneg (gridCoord res iy)]
    · right
      have h1 := coord_sq_lb (gridCoord_abs_lb hiy hres hy)
      unfold Vec3.normSq
      nlinarith [mul_self_nonneg (gridCoord res ix), mul_self_nonneg (gridCoord res iz)]
  · right
    have h1 := coord_sq_lb (gridCoord_abs_lb hix hres hx)
    unfold Vec3.normSq
    nlinarith [mul_self_nonneg (gridCoord res iy), mul_self_nonneg (gridCoord res iz)]

/-- C8: for a grid-cell rest position at a practical resolution, assuming the
sqrt primitive squares back to its argument and is nonnegative there (true of
the real square root), the produced outward direction is the normalized rest
position except that it is the fixed vector `(0,1,0)` when the rest position
is within `1e-6` of the grid center (the origin); in every case the result
is an exact unit vector. -/
theorem C8_outward_direction (M : JsMath) (res : ℕ) (pos : Vec3)
    (hres : res ≤ 100000) (hmem : pos ∈ gridCenters res)
    (hsq : M.sqrt pos.normSq * M.sqrt pos.normSq = pos.normSq)
    (hnn : 0 ≤ M.sqrt pos.normSq) :
    outwardOf M pos
      = (if pos.normSq ≤ 1e-12 then ⟨0, 1, 0⟩ else normalizeV M pos) ∧
    (outwardOf M pos).normSq = 1 := by
  rcases gridCenter_normSq_lb hmem hres with rfl | hlb
  · have h0 : Vec3.normSq ⟨0, 0, 0⟩ = 0 := by norm_num [Vec3.normSq]
    rw [h0] at hsq
    have hl0 : M.sqrt (Vec3.normSq ⟨0, 0, 0⟩) = 0 := by
      rw [h0]
      exact mul_self_eq_zero.mp hsq
    have hnorm : normalizeV M ⟨0, 0, 0⟩ = ⟨0, 0, 0⟩ := by
      unfold normalizeV Vec3.lengthM
      rw [show M.sqrt (Vec3.normSq ⟨0, 0, 0⟩) = 0 from hl0]
      norm_num
    have hout : outwardOf M ⟨0, 0, 0⟩ = ⟨0, 1, 0⟩ := by
      unfold outwardOf
      rw [hnorm, if_pos]
      rw [h0]
      norm_num
    constructor
    · rw [hout, if_pos (by rw [h0]; norm_num)]
    · rw [hout]
      norm_num [Vec3.normSq]
  · have hnpos : 0 < pos.normSq := lt_of_lt_of_le (by norm_num) hlb
    have hlne : M.sqrt pos.normSq ≠ 0 := by
      intro h0
      rw [h0, mul_zero] at hsq
      exact hnpos.ne (by rw [← hsq])
    have hnn1 : normalizeV M pos =
        ⟨pos.x / M.sqrt pos.normSq, pos.y / M.sqrt pos.normSq,
         pos.z / M.sqrt pos.normSq⟩ := by
      simp only [normalizeV, Vec3.lengthM]
      rw [if_neg hlne]
    have hunit : (normalizeV M pos).normSq = 1 := by
      rw [hnn1]
      show pos.x / M.sqrt pos.normSq * (pos.x / M.sqrt pos.normSq) +
          pos.y / M.sqrt pos.normSq * (pos.y / M.sqrt pos.normSq) +
          pos.z / M.sqrt pos.normSq * (pos.z / M.sqrt pos.normSq) = 1
      rw [div_mul_div_comm, div_mul_div_comm, div_mul_div_comm,
        div_add_div_same, div_add_div_same, hsq]
      show pos.normSq / pos.normSq = 1
      exact div_self hnpos.ne'
    have hout : outwardOf M pos = normalizeV M pos := by
      simp only [outwardOf]
      rw [hunit, if_neg (by norm_num)]
    constructor
    · rw [hout, if_neg (by intro hle; nlinarith [hlb, hle])]
    · rw [hout, hunit]

section C8Eval

attribute [local semireducible] Rat.add Rat.mul Rat.sub Rat.inv Rat.ofScientific

set_option maxRecDepth 100000

/-- Witness for C8 at the origin cell of the resolution-1 grid under the
constant interpretation (whose sqrt is exact at 0): the fallback `(0,1,0)` is
produced and is a unit vector. -/
theorem C8_outward_direction_witness :
    outwardOf jsConst ⟨0, 0, 0⟩
      = (if Vec3.normSq ⟨0, 0, 0⟩ ≤ 1e-12 then ⟨0, 1, 0⟩
        else normalizeV jsConst ⟨0, 0, 0⟩) ∧
    (outwardOf jsConst ⟨0, 0, 0⟩).normSq = 1 :=
  C8_outward_direction jsConst 1 ⟨0, 0, 0⟩ (by norm_num) (by decide)
    (by decide) (by decide)

end C8Eval

/-- Designer parameters whose single element is disabled: every grid cell
fails the union test, so the rebuild survives zero cells. -/
def disabledSphereParams10 : PuzzleParams :=
  ⟨.DESIGNER, [⟨.Sphere, ⟨0, 0, 0⟩, ⟨0, 0, 0⟩, 1, false⟩], .Sphere, 10⟩

section C9Eval

set_option maxRecDepth 1000000
set_option maxHeartbeats 4000000

/-- C9: exporting with no built mesh or with an empty piece array returns
without producing a download, and a rebuild with zero surviving cells is a
valid empty piece array (here: all elements disabled), whose export is again
a no-op rather than an error. -/
theorem C9_export_zero_pieces_noop :
    (∀ pieceData : List Piece, exportSTL none pieceData = .noop) ∧
    (∀ mesh : PuzzleMeshData, exportSTL (some mesh) [] = .noop) ∧
    (∀ (M : JsMath) (stream : ℕ → ℚ),
      rebuildPieces M disabledSphereParams10 stream = []) ∧
    (∀ (M : JsMath) (stream : ℕ → ℚ) (mesh : PuzzleMeshData),
      exportSTL (some mesh) (rebuildPieces M disabledSphereParams10 stream) = .noop) :=
  ⟨fun _ => rfl, fun _ => rfl, fun _ _ => rfl, fun _ _ _ => rfl⟩

end C9Eval

/-- C10: one animate tick never mutates the stored chase targets — the audio
boost is applied to per-tick local copies — and only the current values are
updated, by the smoothing step toward the boosted local targets. -/
theorem C10_tick_preserves_targets (ps : PhysicsState) (audioEnabled : Bool)
    (audioLevel : ℚ) :
    (animateTick ps audioEnabled audioLevel).targetExplode = ps.targetExplode ∧
    (animateTick ps audioEnabled audioLevel).targetNoise = ps.targetNoise ∧
    (animateTick ps audioEnabled audioLevel).currentExplode
      = animLerp (boostedTargetExplode ps audioEnabled audioLevel) ps.currentExplode ∧
    (animateTick ps audioEnabled audioLevel).currentNoise
      = animLerp (boostedTargetNoise ps audioEnabled audioLevel) ps.currentNoise :=
  ⟨rfl, rfl, rfl, rfl⟩
